import Mathlib

/-!
Shallow embedding of the panshi startup substrate: the environment
resolver and configuration loader (src/config.rs, src/cli.rs), the
unified error type (src/error.rs), and the component registry with its
provider protocol (src/component/mod.rs).

External collaborators (the filesystem, the Tera template engine, the
toml parser of the config crate, the process environment) are modelled
as explicit parameters; work of the repository's own code is translated
from the source.
-/

namespace Panshi

/-! ### Environment (src/config.rs, lines 24-78) -/

/-- `enum Environment { Production, Development, Test, Any(String) }`. -/
inductive Environment where
  | Production : Environment
  | Development : Environment
  | Test : Environment
  | Any : String → Environment
deriving DecidableEq, Repr

/-- `impl Display for Environment` (config.rs lines 46-55): the three known
variants render as fixed lowercase names, `Any(s)` renders as `s`. -/
def Environment.display : Environment → String
  | .Development => "development"
  | .Production => "production"
  | .Test => "test"
  | .Any s => s

/-- `impl FromStr for Environment` (config.rs lines 57-68): a Rust string
match is a sequence of equality tests; every arm returns `Ok`. -/
def Environment.from_str (input : String) : Except String Environment :=
  if input = "production" then .ok .Production
  else if input = "development" then .ok .Development
  else if input = "test" then .ok .Test
  else .ok (.Any input)

/-- `impl From<String> for Environment` (config.rs lines 70-74):
`Self::from_str(&env).unwrap_or(Self::Any(env))`. -/
def Environment.fromString (env : String) : Environment :=
  match Environment.from_str env with
  | .ok e => e
  | .error _ => .Any env

/-- `pub const DEFAULT_ENVIRONMENT: &str = "development"` (config.rs line 14). -/
def DEFAULT_ENVIRONMENT : String := "development"

/-- `resolve_from_env` (config.rs lines 76-78): the value of the
`INSPIRER_ENV` process variable, else the default. The process variable is
an explicit `Option String` parameter. -/
def resolve_from_env (inspirer_env : Option String) : String :=
  inspirer_env.getD DEFAULT_ENVIRONMENT

/-- `cli::main` environment resolution (cli.rs line 26):
`cli.environment.unwrap_or_else(resolve_from_env).into()`. -/
def cli_resolve (cli_environment : Option String) (inspirer_env : Option String) :
    Environment :=
  Environment.fromString (cli_environment.getD (resolve_from_env inspirer_env))

/-! ### Unified error type (src/error.rs) -/

/-- The variants of `enum Error` that the loader and registry can produce.
Payloads of external error types are modelled as strings; provider error
payloads reuse this type (see `ProviderDef`). -/
inductive Err where
  | NotFound : Err
  | IOError : String → Err
  | ConfigError : String → Err
  | RedisError : String → Err
  | Tera : String → Err
  | Message : String → Err
  | Other : Nat → Err
deriving DecidableEq, Repr

/-! ### Configuration document and loader (src/config.rs, lines 84-155) -/

/-- A filesystem path, as the list of its components
(`PathBuf::join` appends a component). -/
abbrev Path := List String

/-- Values extracted from configuration sections are modelled as naturals. -/
abbrev Val := Nat

/-- The parsed document built by the config crate
(`config::Config`): typed extraction by string key, failing with a
`config::ConfigError` (modelled as a string). -/
structure ConfigDoc where
  getVal : String → Except String Val

/-- `pub struct Config { config: Cfg }` (config.rs lines 84-87). -/
structure Config where
  config : ConfigDoc

/-- `Config::get` (config.rs lines 90-92):
`self.config.get(key).map_err(Into::into)` — the `config::ConfigError`
is converted into the unified error. -/
def Config.get (c : Config) (key : String) : Except Err Val :=
  match c.config.getVal key with
  | .ok v => .ok v
  | .error e => .error (.ConfigError e)

/-- The filesystem, as seen through `Path::exists` and
`fs::read_to_string` (whose failure is an `std::io::Error` string). -/
structure FS where
  fexists : Path → Bool
  readToString : Path → Except String String

/-- The `for (key, val) in env::vars() { context.insert(key, &val) }` loop
of `load_config` (config.rs lines 141-144). -/
def buildContext (vars : List (String × String)) : List (String × String) :=
  vars.foldl (fun ctx kv => ctx ++ [kv]) []

/-- `ConfigLoader::load_config` (config.rs lines 140-154): build the
substitution context from every process environment variable, read the
file's raw text, expand it with `Tera::one_off`, and only then parse the
expanded text as TOML with the config crate's builder. Each step's
failure maps to its own variant of the unified error (`IOError`, `Tera`,
`ConfigError`). `teraOneOff` and `tomlBuild` model the external template
engine and parser. -/
def load_config (fs : FS) (envVars : List (String × String))
    (teraOneOff : String → List (String × String) → Except String String)
    (tomlBuild : String → Except String ConfigDoc)
    (config_file : Path) : Except Err Config :=
  let context := buildContext envVars
  match fs.readToString config_file with
  | .error e => .error (.IOError e)
  | .ok temp =>
    match teraOneOff temp context with
    | .error e => .error (.Tera e)
    | .ok config_content =>
      match tomlBuild config_content with
      | .error e => .error (.ConfigError e)
      | .ok config => .ok { config := config }

/-- `pub struct ConfigLoader<'s> { name: Option<&'s str> }`
(config.rs lines 95-98). -/
structure ConfigLoader where
  name : Option String

/-- The first candidate of `load_folder` (config.rs lines 118-128):
`folder.join(name).join(format!("{env}.local.toml"))` when a name is set,
else `folder.join(format!("{env}.local.toml"))`. -/
def local_candidate (name : Option String) (env : Environment) (folder : Path) : Path :=
  match name with
  | some n => folder ++ [n, env.display ++ ".local.toml"]
  | none => folder ++ [env.display ++ ".local.toml"]

/-- The second candidate of `load_folder`:
`folder.join(name).join(format!("{env}.toml"))` when a name is set, else
`folder.join(format!("{env}.toml"))`. -/
def base_candidate (name : Option String) (env : Environment) (folder : Path) : Path :=
  match name with
  | some n => folder ++ [n, env.display ++ ".toml"]
  | none => folder ++ [env.display ++ ".toml"]

/-- The two-element candidate array of `load_folder`, in source order:
the `.local.toml` file first, the plain `.toml` file second. -/
def candidate_files (name : Option String) (env : Environment) (folder : Path) :
    List Path :=
  [local_candidate name env folder, base_candidate name env folder]

/-- `ConfigLoader::load_folder` (config.rs lines 117-138): build the two
candidate paths, select the first that exists
(`files.iter().find(|p| p.exists())`), fail with
`Error::Message("no configuration file found")` if neither exists, and
load the selected file exclusively. -/
def ConfigLoader.load_folder (l : ConfigLoader) (fs : FS)
    (envVars : List (String × String))
    (teraOneOff : String → List (String × String) → Except String String)
    (tomlBuild : String → Except String ConfigDoc)
    (env : Environment) (folder : Path) : Except Err Config :=
  let files := candidate_files l.name env folder
  match files.find? (fun p => fs.fexists p) with
  | none => .error (.Message "no configuration file found")
  | some selected_path => load_config fs envVars teraOneOff tomlBuild selected_path

/-! ### Component registry (src/component/mod.rs) -/

/-- A `Box<dyn Any + Send + Sync>`: a value together with the runtime
`TypeId` of the concrete type it was boxed from. Component kinds (Rust
types implementing `ComponentProvider`) are identified by naturals. -/
structure Boxed where
  tyid : Nat
  val : Val
deriving DecidableEq, Repr

/-- `DashMap::get` on the association-list model of the instance store. -/
def mapLookup (k : Nat) : List (Nat × Boxed) → Option Boxed
  | [] => none
  | (k', b) :: rest => if k' = k then some b else mapLookup k rest

/-- `DashMap::insert`: replaces the value when the key is present,
appends a new entry otherwise. -/
def mapInsert (k : Nat) (b : Boxed) : List (Nat × Boxed) → List (Nat × Boxed)
  | [] => [(k, b)]
  | (k', b') :: rest =>
    if k' = k then (k, b) :: rest else (k', b') :: mapInsert k b rest

/-- `pub struct ComponentRegister { config, created_components }`
(mod.rs lines 10-13). -/
structure ComponentRegister where
  config : Config
  created_components : List (Nat × Boxed)

/-- `ComponentRegister::new` (mod.rs lines 16-21). -/
def ComponentRegister.new (config : Config) : ComponentRegister :=
  { config := config, created_components := [] }

/-- Outcome of `ComponentRegister::get::<T>` — `Option<T>` plus the two
panic branches of the source (`expect` after `contains_key`, and `unwrap`
after `downcast_ref`). -/
inductive GetOutcome where
  | panicked : GetOutcome
  | found : Val → GetOutcome
  | missing : GetOutcome
deriving DecidableEq, Repr

/-- `ComponentRegister::get` (mod.rs lines 41-58): if `contains_key`
then `get(..).expect(..)` (panic when absent), `downcast_ref::<T>()
.unwrap()` (panic when the boxed runtime type is not `T`), `.clone()`
(identity for value semantics), returned as `Some`; else `None`. -/
def ComponentRegister.get (t : Nat) (r : ComponentRegister) : GetOutcome :=
  if (mapLookup t r.created_components).isSome then
    match mapLookup t r.created_components with
    | none => .panicked
    | some b => if b.tyid = t then .found b.val else .panicked
  else .missing

/-- The body of a provider's `async fn create(config, register)`: it may
return a value, return an error, or call
`component_register.component::<Dep>().await` and continue with that
call's `Result` (so it can propagate the failure, like `session.rs`
line 29 does with `?`, or handle it). -/
inductive CreateProg where
  | ret : Val → CreateProg
  | fail : Err → CreateProg
  | dep : Nat → (Except Err Val → CreateProg) → CreateProg

/-- One implementation of `trait ComponentProvider` (mod.rs lines 61-75):
the config key, the `Into<crate::error::Error>` conversion of its error
type, and `create` as a function of the deserialized config section. -/
structure ProviderDef where
  config_key : String
  intoErr : Err → Err
  create : Val → CreateProg

/-- Instrumentation events: a `T::create` invocation, and a read of a
config section via `self.config.get::<T::Config>(T::config_key())`. -/
inductive Ev where
  | createCall : Nat → Ev
  | configRead : String → Ev
deriving DecidableEq, Repr

/-- Result of running a registry operation: a panic, divergence
(`timeout`, the fuel of the interpreter ran out — it propagates
uncatchably, as nontermination does), or an error / success together
with the registry state left behind and the trace of events. -/
inductive CResult where
  | panicked : CResult
  | timeout : CResult
  | err : Err → ComponentRegister → List Ev → CResult
  | ok : Val → ComponentRegister → List Ev → CResult

/-- Run a provider's `create` body against the registry. `callComp` is
`ComponentRegister::component` for dependency requests; its converted
errors are handed to the continuation. The `err` results of this
function carry the provider's own (not yet converted) error, mirroring
that conversion happens once, in `component`'s `map_err` (mod.rs
line 33). -/
def runProgAux (callComp : Nat → ComponentRegister → CResult) :
    CreateProg → ComponentRegister → CResult
  | .ret v, r => .ok v r []
  | .fail e, r => .err e r []
  | .dep t k, r =>
    match callComp t r with
    | .panicked => .panicked
    | .timeout => .timeout
    | .err e r1 tr1 =>
      match runProgAux callComp (k (.error e)) r1 with
      | .panicked => .panicked
      | .timeout => .timeout
      | .err e2 r2 tr2 => .err e2 r2 (tr1 ++ tr2)
      | .ok v2 r2 tr2 => .ok v2 r2 (tr1 ++ tr2)
    | .ok v r1 tr1 =>
      match runProgAux callComp (k (.ok v)) r1 with
      | .panicked => .panicked
      | .timeout => .timeout
      | .err e2 r2 tr2 => .err e2 r2 (tr1 ++ tr2)
      | .ok v2 r2 tr2 => .ok v2 r2 (tr1 ++ tr2)

/-- `ComponentRegister::component::<T>` (mod.rs lines 23-39), as a
fuel-indexed interpreter over a family `P` of providers indexed by kind
identity. Steps, in source order: `self.get::<T>()` with early return
when found; `self.config.get::<T::Config>(T::config_key())?`;
`T::create(config, self).await.map_err(|err| err.into())?`;
`self.created_components.insert(TypeId::of::<T>(),
Box::new(component.clone()))`; `Ok(component)`. -/
def runComponent (P : Nat → ProviderDef) :
    Nat → Nat → ComponentRegister → CResult
  | 0, _, _ => .timeout
  | fuel + 1, t, r =>
    match ComponentRegister.get t r with
    | .panicked => .panicked
    | .found v => .ok v r []
    | .missing =>
      match r.config.get (P t).config_key with
      | .error e => .err e r [.configRead (P t).config_key]
      | .ok cfgv =>
        match runProgAux (fun t' r' => runComponent P fuel t' r') ((P t).create cfgv) r with
        | .panicked => .panicked
        | .timeout => .timeout
        | .err e r' tr =>
          .err ((P t).intoErr e) r'
            (.configRead (P t).config_key :: .createCall t :: tr)
        | .ok v r' tr =>
          .ok v
            { r' with created_components :=
                mapInsert t ⟨t, v⟩ r'.created_components }
            (.configRead (P t).config_key :: .createCall t :: tr)

/-- The registry state after one `component` call by a client (the
panicked and diverging cases leave no observable later state; the
registry is kept unchanged there so that sequences remain total). -/
def afterOp (P : Nat → ProviderDef) (r : ComponentRegister) (op : Nat × Nat) :
    ComponentRegister :=
  match runComponent P op.2 op.1 r with
  | .ok _ r' _ => r'
  | .err _ r' _ => r'
  | _ => r

/-- The registry state after a sequence of `component` calls
(kind, fuel). -/
def runSeq (P : Nat → ProviderDef) (ops : List (Nat × Nat))
    (r : ComponentRegister) : ComponentRegister :=
  ops.foldl (afterOp P) r

/-- The store invariant: every stored box was boxed from a value of the
kind it is keyed under, so every `downcast_ref::<T>` succeeds. -/
def ComponentRegister.WF (r : ComponentRegister) : Prop :=
  ∀ k b, mapLookup k r.created_components = some b → b.tyid = k

/-- A predicate on the registry holding in every observable outcome. -/
def resQ (Q : ComponentRegister → Prop) : CResult → Prop
  | .ok _ r _ => Q r
  | .err _ r _ => Q r
  | _ => True

/-- An observable outcome that did not panic and left a well-formed store. -/
def goodRes (c : CResult) : Prop :=
  c ≠ CResult.panicked ∧ resQ ComponentRegister.WF c

/-- In an observable outcome whose trace holds no `create` invocation for
kind `k0`, the store's entry for `k0` is still `o`. -/
def resLook (k0 : Nat) (o : Option Boxed) : CResult → Prop
  | .ok _ r tr => Ev.createCall k0 ∉ tr → mapLookup k0 r.created_components = o
  | .err _ r tr => Ev.createCall k0 ∉ tr → mapLookup k0 r.created_components = o
  | _ => True

/-! ### Concrete instances used by the witnesses and counterexamples -/

/-- A document with a single `port` key holding `42`. -/
def exDoc5 : ConfigDoc :=
  ⟨fun k => if k = "port" then .ok 42 else .error "missing key"⟩

/-- The path `config/development.toml`. -/
def exBasePath : Path := ["config", "development.toml"]

/-- The path `config/development.local.toml`. -/
def exLocalPath : Path := ["config", "development.local.toml"]

/-- A filesystem where only `config/development.toml` exists, holding a
text with a `\x7b\x7b SOME_VAR \x7d\x7d` placeholder. -/
def exFS5 : FS :=
  { fexists := fun p => decide (p = exBasePath)
    readToString := fun p =>
      if p = exBasePath then .ok "port = \x7b\x7b SOME_VAR \x7d\x7d"
      else .error "no such file" }

/-- The template engine's behaviour at the witness input: substitutes the
`SOME_VAR` placeholder from the context. -/
def exTera5 : String → List (String × String) → Except String String :=
  fun temp ctx =>
    if temp = "port = \x7b\x7b SOME_VAR \x7d\x7d" then
      match ctx.find? (fun kv => kv.1 = "SOME_VAR") with
      | some kv => .ok ("port = " ++ kv.2)
      | none => .error "variable not found"
    else .error "unexpected template"

/-- The toml parser's behaviour at the witness input. -/
def exToml5 : String → Except String ConfigDoc :=
  fun s => if s = "port = 42" then .ok exDoc5 else .error "parse error"

/-- Identity template engine (no placeholders in the files). -/
def exTeraId : String → List (String × String) → Except String String :=
  fun temp _ => .ok temp

/-- A parser mapping the marker texts of the layering witness to
distinguishable documents. -/
def exToml3 : String → Except String ConfigDoc :=
  fun s => .ok ⟨fun k => if k = "marker" then (if s = "A" then .ok 1 else .ok 2) else .error "missing key"⟩

/-- A filesystem where only the local override exists, with content `A`. -/
def exFS3a : FS :=
  { fexists := fun p => decide (p = exLocalPath)
    readToString := fun p => if p = exLocalPath then .ok "A" else .error "no such file" }

/-- A filesystem where the local override (content `A`) and the base file
(conflicting content `B`) both exist. -/
def exFS3b : FS :=
  { fexists := fun p => decide (p = exLocalPath ∨ p = exBasePath)
    readToString := fun p =>
      if p = exLocalPath then .ok "A"
      else if p = exBasePath then .ok "B" else .error "no such file" }

/-- An empty filesystem: no candidate configuration file exists. -/
def exFS4 : FS :=
  { fexists := fun _ => false
    readToString := fun _ => .error "no such file" }

/-- A document for the registry instances: every section deserializes
to `1`. -/
def exCfg : Config := ⟨⟨fun _ => .ok 1⟩⟩

/-- A fresh registry over `exCfg`. -/
def exReg : ComponentRegister := ComponentRegister.new exCfg

/-- One provider for every kind: config key `k`, identity error
conversion, `create` returning `5` without dependencies. -/
def exP1 : Nat → ProviderDef :=
  fun _ => { config_key := "k", intoErr := fun e => e, create := fun _ => .ret 5 }

/-- The registry after kind `0` was constructed by `exP1`. -/
def exReg1 : ComponentRegister :=
  { config := exCfg, created_components := [(0, ⟨0, 5⟩)] }

/-- Providers for the failure counterexample: kind `0` requests kind `1`
as a dependency and then fails (as `session.rs` can fail after its redis
dependency was built); kind `1` constructs successfully. -/
def exP6 : Nat → ProviderDef :=
  fun t =>
    if t = 0 then
      { config_key := "t", intoErr := fun e => e
        create := fun _ => .dep 1 (fun res =>
          match res with
          | .ok _ => .fail (.Other 7)
          | .error e => .fail e) }
    else
      { config_key := "b", intoErr := fun e => e, create := fun _ => .ret 5 }

/-- The registry after `exP6`'s failed construction of kind `0`: the
dependency entry for kind `1` remains. -/
def exReg6 : ComponentRegister :=
  { config := exCfg, created_components := [(1, ⟨1, 5⟩)] }

/-- A provider whose `create` fails immediately with `Other 9`. -/
def exP6w : Nat → ProviderDef :=
  fun _ => { config_key := "k", intoErr := fun e => e, create := fun _ => .fail (.Other 9) }

/-! ### Helper lemmas on the store and on `ComponentRegister::get` -/

theorem mapLookup_insert (k k' : Nat) (b : Boxed) (l : List (Nat × Boxed)) :
    mapLookup k (mapInsert k' b l) = if k' = k then some b else mapLookup k l := by
  induction l with
  | nil => simp [mapInsert, mapLookup]
  | cons hd tl ih =>
    obtain ⟨k0, b0⟩ := hd
    by_cases h : k0 = k'
    · subst h
      by_cases h2 : k0 = k
      · simp [mapInsert, mapLookup, h2]
      · simp [mapInsert, mapLookup, h2]
    · simp only [mapInsert, if_neg h, mapLookup]
      by_cases h2 : k0 = k
      · subst h2
        have hk : ¬ k' = k0 := fun hc => h hc.symm
        simp [mapLookup, if_neg hk]
      · simp [if_neg h2, ih]

theorem get_of_lookup_none {t : Nat} {r : ComponentRegister}
    (h : mapLookup t r.created_components = none) :
    ComponentRegister.get t r = .missing := by
  simp [ComponentRegister.get, h]

theorem get_missing_lookup {t : Nat} {r : ComponentRegister}
    (h : ComponentRegister.get t r = .missing) :
    mapLookup t r.created_components = none := by
  unfold ComponentRegister.get at h
  cases hl : mapLookup t r.created_components with
  | none => rfl
  | some b =>
    rw [hl] at h
    simp only [Option.isSome_some, if_true] at h
    by_cases ht : b.tyid = t
    · rw [if_pos ht] at h; cases h
    · rw [if_neg ht] at h; cases h

theorem get_of_lookup_tyid {t : Nat} {r : ComponentRegister} {b : Boxed}
    (h : mapLookup t r.created_components = some b) (ht : b.tyid = t) :
    ComponentRegister.get t r = .found b.val := by
  simp [ComponentRegister.get, h, ht]

theorem get_found_lookup {t : Nat} {r : ComponentRegister} {v : Val}
    (h : ComponentRegister.get t r = .found v) :
    mapLookup t r.created_components = some ⟨t, v⟩ := by
  unfold ComponentRegister.get at h
  cases hl : mapLookup t r.created_components with
  | none => rw [hl] at h; simp at h
  | some b =>
    rw [hl] at h
    simp only [Option.isSome_some, if_true] at h
    by_cases ht : b.tyid = t
    · rw [if_pos ht] at h
      cases h
      cases b
      cases ht
      rfl
    · rw [if_neg ht] at h; cases h

theorem get_no_panic {t : Nat} {r : ComponentRegister} (h : r.WF) :
    ComponentRegister.get t r ≠ .panicked := by
  unfold ComponentRegister.get
  cases hl : mapLookup t r.created_components with
  | none => simp
  | some b =>
    have ht := h t b hl
    simp [ht]

theorem WF_insert {r : ComponentRegister} (t : Nat) (v : Val) (h : r.WF) :
    ComponentRegister.WF
      { r with created_components :=
          mapInsert t ⟨t, v⟩ r.created_components } := by
  intro k b hkb
  simp only [mapLookup_insert] at hkb
  by_cases hk : t = k
  · rw [if_pos hk] at hkb
    cases hkb
    exact hk
  · rw [if_neg hk] at hkb
    exact h k b hkb

/-! ### Preservation of registry predicates through runs -/

theorem runProgAux_pres (Q : ComponentRegister → Prop)
    (cc : Nat → ComponentRegister → CResult)
    (hcc : ∀ t r, Q r → resQ Q (cc t r)) (prog : CreateProg) :
    ∀ r, Q r → resQ Q (runProgAux cc prog r) := by
  induction prog with
  | ret v => intro r hr; exact hr
  | fail e => intro r hr; exact hr
  | dep t k ih =>
    intro r hr
    have h1 := hcc t r hr
    cases hc : cc t r with
    | panicked => simp only [runProgAux, hc]; trivial
    | timeout => simp only [runProgAux, hc]; trivial
    | err e r1 tr1 =>
      rw [hc] at h1
      have h2 := ih (.error e) r1 h1
      cases h3 : runProgAux cc (k (.error e)) r1 with
      | panicked => simp only [runProgAux, hc, h3]; trivial
      | timeout => simp only [runProgAux, hc, h3]; trivial
      | err e2 r2 tr2 =>
        rw [h3] at h2
        simp only [runProgAux, hc, h3]
        exact h2
      | ok v2 r2 tr2 =>
        rw [h3] at h2
        simp only [runProgAux, hc, h3]
        exact h2
    | ok v r1 tr1 =>
      rw [hc] at h1
      have h2 := ih (.ok v) r1 h1
      cases h3 : runProgAux cc (k (.ok v)) r1 with
      | panicked => simp only [runProgAux, hc, h3]; trivial
      | timeout => simp only [runProgAux, hc, h3]; trivial
      | err e2 r2 tr2 =>
        rw [h3] at h2
        simp only [runProgAux, hc, h3]
        exact h2
      | ok v2 r2 tr2 =>
        rw [h3] at h2
        simp only [runProgAux, hc, h3]
        exact h2

theorem runComponent_pres (P : Nat → ProviderDef) (Q : ComponentRegister → Prop)
    (hins : ∀ t v r r', Q r → Q r' → ComponentRegister.get t r = .missing →
        Q { r' with created_components :=
              mapInsert t ⟨t, v⟩ r'.created_components }) :
    ∀ fuel t r, Q r → resQ Q (runComponent P fuel t r) := by
  intro fuel
  induction fuel with
  | zero => intro t r _; trivial
  | succ f ih =>
    intro t r hr
    cases hg : ComponentRegister.get t r with
    | panicked => simp only [runComponent, hg]; trivial
    | found v => simp only [runComponent, hg]; exact hr
    | missing =>
      cases hcfg : r.config.get (P t).config_key with
      | error e => simp only [runComponent, hg, hcfg]; exact hr
      | ok cfgv =>
        have hrun := runProgAux_pres Q (fun t' r' => runComponent P f t' r')
          (fun t' r' h => ih t' r' h) ((P t).create cfgv) r hr
        cases h3 : runProgAux (fun t' r' => runComponent P f t' r')
            ((P t).create cfgv) r with
        | panicked => simp only [runComponent, hg, hcfg, h3]; trivial
        | timeout => simp only [runComponent, hg, hcfg, h3]; trivial
        | err e r' tr =>
          rw [h3] at hrun
          simp only [runComponent, hg, hcfg, h3]
          exact hrun
        | ok v r' tr =>
          rw [h3] at hrun
          simp only [runComponent, hg, hcfg, h3]
          exact hins t v r r' hr hrun hg

theorem runComponent_pres_WF (P : Nat → ProviderDef) (fuel t : Nat)
    (r : ComponentRegister) (h : r.WF) :
    resQ ComponentRegister.WF (runComponent P fuel t r) :=
  runComponent_pres P ComponentRegister.WF
    (fun t v _ _ _ hr' _ => WF_insert t v hr') fuel t r h

theorem runComponent_pres_entry (P : Nat → ProviderDef) (k0 : Nat) (b0 : Boxed)
    (fuel t : Nat) (r : ComponentRegister)
    (h : mapLookup k0 r.created_components = some b0) :
    resQ (fun r' => mapLookup k0 r'.created_components = some b0)
      (runComponent P fuel t r) := by
  refine runComponent_pres P _ ?_ fuel t r h
  intro t v r r' hQr hQr' hmiss
  have hnone := get_missing_lookup hmiss
  have htk : ¬ t = k0 := by
    intro hc
    rw [hc] at hnone
    rw [hQr] at hnone
    cases hnone
  simp only [mapLookup_insert, if_neg htk]
  exact hQr'

theorem runComponent_pres_config (P : Nat → ProviderDef) (c0 : Config)
    (fuel t : Nat) (r : ComponentRegister) (h : r.config = c0) :
    resQ (fun r' => r'.config = c0) (runComponent P fuel t r) :=
  runComponent_pres P _ (fun _ _ _ _ _ hr' _ => hr') fuel t r h

/-! ### No observable run panics when the store is well-formed -/

theorem runProgAux_no_panic (cc : Nat → ComponentRegister → CResult)
    (hcc : ∀ t r, r.WF → goodRes (cc t r)) (prog : CreateProg) :
    ∀ r, r.WF → goodRes (runProgAux cc prog r) := by
  induction prog with
  | ret v => intro r hr; exact ⟨fun h => CResult.noConfusion h, hr⟩
  | fail e => intro r hr; exact ⟨fun h => CResult.noConfusion h, hr⟩
  | dep t k ih =>
    intro r hr
    obtain ⟨hnp1, hq1⟩ := hcc t r hr
    cases hc : cc t r with
    | panicked => exact absurd hc hnp1
    | timeout =>
      simp only [runProgAux, hc]
      exact ⟨fun h => CResult.noConfusion h, trivial⟩
    | err e r1 tr1 =>
      rw [hc] at hq1
      obtain ⟨hnp2, hq2⟩ := ih (.error e) r1 hq1
      cases h3 : runProgAux cc (k (.error e)) r1 with
      | panicked => exact absurd h3 hnp2
      | timeout =>
        simp only [runProgAux, hc, h3]
        exact ⟨fun h => CResult.noConfusion h, trivial⟩
      | err e2 r2 tr2 =>
        rw [h3] at hq2
        simp only [runProgAux, hc, h3]
        exact ⟨fun h => CResult.noConfusion h, hq2⟩
      | ok v2 r2 tr2 =>
        rw [h3] at hq2
        simp only [runProgAux, hc, h3]
        exact ⟨fun h => CResult.noConfusion h, hq2⟩
    | ok v r1 tr1 =>
      rw [hc] at hq1
      obtain ⟨hnp2, hq2⟩ := ih (.ok v) r1 hq1
      cases h3 : runProgAux cc (k (.ok v)) r1 with
      | panicked => exact absurd h3 hnp2
      | timeout =>
        simp only [runProgAux, hc, h3]
        exact ⟨fun h => CResult.noConfusion h, trivial⟩
      | err e2 r2 tr2 =>
        rw [h3] at hq2
        simp only [runProgAux, hc, h3]
        exact ⟨fun h => CResult.noConfusion h, hq2⟩
      | ok v2 r2 tr2 =>
        rw [h3] at hq2
        simp only [runProgAux, hc, h3]
        exact ⟨fun h => CResult.noConfusion h, hq2⟩

theorem runComponent_no_panic (P : Nat → ProviderDef) :
    ∀ fuel t r, ComponentRegister.WF r → goodRes (runComponent P fuel t r) := by
  intro fuel
  induction fuel with
  | zero =>
    intro t r _
    exact ⟨fun h => CResult.noConfusion h, trivial⟩
  | succ f ih =>
    intro t r hr
    cases hg : ComponentRegister.get t r with
    | panicked => exact absurd hg (get_no_panic hr)
    | found v =>
      simp only [runComponent, hg]
      exact ⟨fun h => CResult.noConfusion h, hr⟩
    | missing =>
      cases hcfg : r.config.get (P t).config_key with
      | error e =>
        simp only [runComponent, hg, hcfg]
        exact ⟨fun h => CResult.noConfusion h, hr⟩
      | ok cfgv =>
        obtain ⟨hnp, hq⟩ := runProgAux_no_panic (fun t' r' => runComponent P f t' r')
          (fun t' r' h => ih t' r' h) ((P t).create cfgv) r hr
        cases h3 : runProgAux (fun t' r' => runComponent P f t' r')
            ((P t).create cfgv) r with
        | panicked => exact absurd h3 hnp
        | timeout =>
          simp only [runComponent, hg, hcfg, h3]
          exact ⟨fun h => CResult.noConfusion h, trivial⟩
        | err e r' tr =>
          rw [h3] at hq
          simp only [runComponent, hg, hcfg, h3]
          exact ⟨fun h => CResult.noConfusion h, hq⟩
        | ok v r' tr =>
          rw [h3] at hq
          simp only [runComponent, hg, hcfg, h3]
          exact ⟨fun h => CResult.noConfusion h, WF_insert t v hq⟩

/-! ### Without a `create` invocation for a kind, its entry is untouched -/

theorem runProgAux_lookup (k0 : Nat) (o : Option Boxed)
    (cc : Nat → ComponentRegister → CResult)
    (hcc : ∀ t r, mapLookup k0 r.created_components = o → resLook k0 o (cc t r))
    (prog : CreateProg) :
    ∀ r, mapLookup k0 r.created_components = o → resLook k0 o (runProgAux cc prog r) := by
  induction prog with
  | ret v => intro r hr; exact fun _ => hr
  | fail e => intro r hr; exact fun _ => hr
  | dep t k ih =>
    intro r hr
    have h1 := hcc t r hr
    cases hc : cc t r with
    | panicked => simp only [runProgAux, hc]; trivial
    | timeout => simp only [runProgAux, hc]; trivial
    | err e r1 tr1 =>
      rw [hc] at h1
      cases h3 : runProgAux cc (k (.error e)) r1 with
      | panicked => simp only [runProgAux, hc, h3]; trivial
      | timeout => simp only [runProgAux, hc, h3]; trivial
      | err e2 r2 tr2 =>
        simp only [runProgAux, hc, h3]
        intro hmem
        rw [List.mem_append] at hmem
        push_neg at hmem
        have h1' := h1 hmem.1
        have h2 := ih (.error e) r1 h1'
        rw [h3] at h2
        exact h2 hmem.2
      | ok v2 r2 tr2 =>
        simp only [runProgAux, hc, h3]
        intro hmem
        rw [List.mem_append] at hmem
        push_neg at hmem
        have h1' := h1 hmem.1
        have h2 := ih (.error e) r1 h1'
        rw [h3] at h2
        exact h2 hmem.2
    | ok v r1 tr1 =>
      rw [hc] at h1
      cases h3 : runProgAux cc (k (.ok v)) r1 with
      | panicked => simp only [runProgAux, hc, h3]; trivial
      | timeout => simp only [runProgAux, hc, h3]; trivial
      | err e2 r2 tr2 =>
        simp only [runProgAux, hc, h3]
        intro hmem
        rw [List.mem_append] at hmem
        push_neg at hmem
        have h1' := h1 hmem.1
        have h2 := ih (.ok v) r1 h1'
        rw [h3] at h2
        exact h2 hmem.2
      | ok v2 r2 tr2 =>
        simp only [runProgAux, hc, h3]
        intro hmem
        rw [List.mem_append] at hmem
        push_neg at hmem
        have h1' := h1 hmem.1
        have h2 := ih (.ok v) r1 h1'
        rw [h3] at h2
        exact h2 hmem.2

theorem runComponent_lookup (P : Nat → ProviderDef) (k0 : Nat) (o : Option Boxed) :
    ∀ fuel t r, mapLookup k0 r.created_components = o →
      resLook k0 o (runComponent P fuel t r) := by
  intro fuel
  induction fuel with
  | zero => intro t r _; trivial
  | succ f ih =>
    intro t r hr
    cases hg : ComponentRegister.get t r with
    | panicked => simp only [runComponent, hg]; trivial
    | found v => simp only [runComponent, hg]; exact fun _ => hr
    | missing =>
      cases hcfg : r.config.get (P t).config_key with
      | error e => simp only [runComponent, hg, hcfg]; exact fun _ => hr
      | ok cfgv =>
        have hrun := runProgAux_lookup k0 o (fun t' r' => runComponent P f t' r')
          (fun t' r' h => ih t' r' h) ((P t).create cfgv) r hr
        cases h3 : runProgAux (fun t' r' => runComponent P f t' r')
            ((P t).create cfgv) r with
        | panicked => simp only [runComponent, hg, hcfg, h3]; trivial
        | timeout => simp only [runComponent, hg, hcfg, h3]; trivial
        | err e r' tr =>
          rw [h3] at hrun
          simp only [runComponent, hg, hcfg, h3]
          intro hmem
          refine hrun ?_
          intro hin
          exact hmem (List.mem_cons_of_mem _ (List.mem_cons_of_mem _ hin))
        | ok v r' tr =>
          rw [h3] at hrun
          simp only [runComponent, hg, hcfg, h3]
          intro hmem
          have htk : ¬ t = k0 := by
            intro hc
            exact hmem (by rw [hc]; exact List.mem_cons_of_mem _ (List.mem_cons_self _ _))
          have hr' := hrun (fun hin =>
            hmem (List.mem_cons_of_mem _ (List.mem_cons_of_mem _ hin)))
          simp only [mapLookup_insert, if_neg htk]
          exact hr'

/-! ### Shape lemmas for single `component` calls -/

theorem runComponent_found (P : Nat → ProviderDef) (fuel t : Nat)
    (r : ComponentRegister) (v : Val)
    (h : mapLookup t r.created_components = some ⟨t, v⟩) :
    runComponent P (fuel + 1) t r = .ok v r [] := by
  have hg : ComponentRegister.get t r = .found v := get_of_lookup_tyid h rfl
  simp only [runComponent, hg]

theorem runComponent_ok_lookup {P : Nat → ProviderDef} {fuel t : Nat}
    {r r' : ComponentRegister} {v : Val} {tr : List Ev}
    (h : runComponent P fuel t r = .ok v r' tr) :
    mapLookup t r'.created_components = some ⟨t, v⟩ := by
  cases fuel with
  | zero => cases h
  | succ f =>
    cases hg : ComponentRegister.get t r with
    | panicked =>
      have hx : runComponent P (f + 1) t r = CResult.panicked := by
        simp only [runComponent, hg]
      rw [h] at hx
      exact CResult.noConfusion hx
    | found v0 =>
      have hx : runComponent P (f + 1) t r = CResult.ok v0 r [] := by
        simp only [runComponent, hg]
      rw [h] at hx
      injection hx with hv hr htr
      rw [hr]
      rw [← hv] at hg
      exact get_found_lookup hg
    | missing =>
      cases hcfg : r.config.get (P t).config_key with
      | error e =>
        have hx : runComponent P (f + 1) t r =
            CResult.err e r [Ev.configRead (P t).config_key] := by
          simp only [runComponent, hg, hcfg]
        rw [h] at hx
        exact CResult.noConfusion hx
      | ok cfgv =>
        cases h3 : runProgAux (fun t2 r2 => runComponent P f t2 r2)
            ((P t).create cfgv) r with
        | panicked =>
          have hx : runComponent P (f + 1) t r = CResult.panicked := by
            simp only [runComponent, hg, hcfg, h3]
          rw [h] at hx
          exact CResult.noConfusion hx
        | timeout =>
          have hx : runComponent P (f + 1) t r = CResult.timeout := by
            simp only [runComponent, hg, hcfg, h3]
          rw [h] at hx
          exact CResult.noConfusion hx
        | err e r0 tr0 =>
          have hx : runComponent P (f + 1) t r = CResult.err ((P t).intoErr e) r0
              (Ev.configRead (P t).config_key :: Ev.createCall t :: tr0) := by
            simp only [runComponent, hg, hcfg, h3]
          rw [h] at hx
          exact CResult.noConfusion hx
        | ok v0 r0 tr0 =>
          have hx : runComponent P (f + 1) t r = CResult.ok v0
              { r0 with created_components :=
                  mapInsert t ⟨t, v0⟩ r0.created_components }
              (Ev.configRead (P t).config_key :: Ev.createCall t :: tr0) := by
            simp only [runComponent, hg, hcfg, h3]
          rw [h] at hx
          injection hx with hv hr htr
          rw [hr, hv]
          simp [mapLookup_insert]

theorem runComponent_ok_trace {P : Nat → ProviderDef} {fuel t : Nat}
    {r r' : ComponentRegister} {v : Val} {tr : List Ev}
    (h : runComponent P fuel t r = .ok v r' tr)
    (h0 : mapLookup t r.created_components = none) :
    Ev.configRead (P t).config_key ∈ tr ∧ Ev.createCall t ∈ tr := by
  cases fuel with
  | zero => cases h
  | succ f =>
    have hg : ComponentRegister.get t r = .missing := get_of_lookup_none h0
    cases hcfg : r.config.get (P t).config_key with
    | error e =>
      have hx : runComponent P (f + 1) t r =
          CResult.err e r [Ev.configRead (P t).config_key] := by
        simp only [runComponent, hg, hcfg]
      rw [h] at hx
      exact CResult.noConfusion hx
    | ok cfgv =>
      cases h3 : runProgAux (fun t2 r2 => runComponent P f t2 r2)
          ((P t).create cfgv) r with
      | panicked =>
        have hx : runComponent P (f + 1) t r = CResult.panicked := by
          simp only [runComponent, hg, hcfg, h3]
        rw [h] at hx
        exact CResult.noConfusion hx
      | timeout =>
        have hx : runComponent P (f + 1) t r = CResult.timeout := by
          simp only [runComponent, hg, hcfg, h3]
        rw [h] at hx
        exact CResult.noConfusion hx
      | err e r0 tr0 =>
        have hx : runComponent P (f + 1) t r = CResult.err ((P t).intoErr e) r0
            (Ev.configRead (P t).config_key :: Ev.createCall t :: tr0) := by
          simp only [runComponent, hg, hcfg, h3]
        rw [h] at hx
        exact CResult.noConfusion hx
      | ok v0 r0 tr0 =>
        have hx : runComponent P (f + 1) t r = CResult.ok v0
            { r0 with created_components :=
                mapInsert t ⟨t, v0⟩ r0.created_components }
            (Ev.configRead (P t).config_key :: Ev.createCall t :: tr0) := by
          simp only [runComponent, hg, hcfg, h3]
        rw [h] at hx
        injection hx with hv hr htr
        rw [htr]
        exact ⟨List.mem_cons_self _ _,
          List.mem_cons_of_mem _ (List.mem_cons_self _ _)⟩

theorem runComponent_err_shape {P : Nat → ProviderDef} {fuel t : Nat}
    {r r' : ComponentRegister} {e : Err} {tr' : List Ev}
    (h : runComponent P (fuel + 1) t r =
      .err e r' (Ev.configRead (P t).config_key :: Ev.createCall t :: tr')) :
    ∃ e0 cfgv, ComponentRegister.get t r = .missing ∧
      r.config.get (P t).config_key = .ok cfgv ∧
      runProgAux (fun t2 r2 => runComponent P fuel t2 r2) ((P t).create cfgv) r =
        .err e0 r' tr' ∧
      e = (P t).intoErr e0 := by
  cases hg : ComponentRegister.get t r with
  | panicked =>
    have hx : runComponent P (fuel + 1) t r = CResult.panicked := by
      simp only [runComponent, hg]
    rw [h] at hx
    exact CResult.noConfusion hx
  | found v0 =>
    have hx : runComponent P (fuel + 1) t r = CResult.ok v0 r [] := by
      simp only [runComponent, hg]
    rw [h] at hx
    exact CResult.noConfusion hx
  | missing =>
    cases hcfg : r.config.get (P t).config_key with
    | error e1 =>
      have hx : runComponent P (fuel + 1) t r =
          CResult.err e1 r [Ev.configRead (P t).config_key] := by
        simp only [runComponent, hg, hcfg]
      rw [h] at hx
      injection hx with he hr htr
      cases htr
    | ok cfgv =>
      cases h3 : runProgAux (fun t2 r2 => runComponent P fuel t2 r2)
          ((P t).create cfgv) r with
      | panicked =>
        have hx : runComponent P (fuel + 1) t r = CResult.panicked := by
          simp only [runComponent, hg, hcfg, h3]
        rw [h] at hx
        exact CResult.noConfusion hx
      | timeout =>
        have hx : runComponent P (fuel + 1) t r = CResult.timeout := by
          simp only [runComponent, hg, hcfg, h3]
        rw [h] at hx
        exact CResult.noConfusion hx
      | ok v0 r0 tr0 =>
        have hx : runComponent P (fuel + 1) t r = CResult.ok v0
            { r0 with created_components :=
                mapInsert t ⟨t, v0⟩ r0.created_components }
            (Ev.configRead (P t).config_key :: Ev.createCall t :: tr0) := by
          simp only [runComponent, hg, hcfg, h3]
        rw [h] at hx
        exact CResult.noConfusion hx
      | err e0 r0 tr0 =>
        have hx : runComponent P (fuel + 1) t r = CResult.err ((P t).intoErr e0) r0
            (Ev.configRead (P t).config_key :: Ev.createCall t :: tr0) := by
          simp only [runComponent, hg, hcfg, h3]
        rw [h] at hx
        injection hx with he hr htr
        injection htr with htr1 htr2
        injection htr2 with htr2 htr3
        refine ⟨e0, cfgv, rfl, rfl, ?_, he⟩
        rw [h3, hr, htr3]

/-! ### Sequences of `component` calls -/

theorem afterOp_entry (P : Nat → ProviderDef) (k0 : Nat) (b0 : Boxed)
    (r : ComponentRegister) (op : Nat × Nat)
    (h : mapLookup k0 r.created_components = some b0) :
    mapLookup k0 (afterOp P r op).created_components = some b0 := by
  have hq := runComponent_pres_entry P k0 b0 op.2 op.1 r h
  cases hc : runComponent P op.2 op.1 r with
  | ok v r' tr =>
    rw [hc] at hq
    simp only [afterOp, hc]
    exact hq
  | err e r' tr =>
    rw [hc] at hq
    simp only [afterOp, hc]
    exact hq
  | panicked => simp only [afterOp, hc]; exact h
  | timeout => simp only [afterOp, hc]; exact h

theorem runSeq_entry (P : Nat → ProviderDef) (k0 : Nat) (b0 : Boxed)
    (ops : List (Nat × Nat)) :
    ∀ r, mapLookup k0 r.created_components = some b0 →
      mapLookup k0 (runSeq P ops r).created_components = some b0 := by
  induction ops with
  | nil => intro r h; exact h
  | cons op ops ih =>
    intro r h
    exact ih (afterOp P r op) (afterOp_entry P k0 b0 r op h)

theorem afterOp_WF (P : Nat → ProviderDef) (r : ComponentRegister)
    (op : Nat × Nat) (h : r.WF) : (afterOp P r op).WF := by
  have hq := runComponent_pres_WF P op.2 op.1 r h
  cases hc : runComponent P op.2 op.1 r with
  | ok v r' tr =>
    rw [hc] at hq
    simp only [afterOp, hc]
    exact hq
  | err e r' tr =>
    rw [hc] at hq
    simp only [afterOp, hc]
    exact hq
  | panicked => simp only [afterOp, hc]; exact h
  | timeout => simp only [afterOp, hc]; exact h

theorem runSeq_WF (P : Nat → ProviderDef) (ops : List (Nat × Nat)) :
    ∀ r, ComponentRegister.WF r → (runSeq P ops r).WF := by
  induction ops with
  | nil => intro r h; exact h
  | cons op ops ih =>
    intro r h
    exact ih (afterOp P r op) (afterOp_WF P r op h)

theorem new_WF (cfg : Config) : (ComponentRegister.new cfg).WF := by
  intro k b hkb
  cases hkb

/-! ### Environment resolution helpers -/

theorem from_str_total (s : String) :
    Environment.from_str s = .ok (Environment.fromString s) := by
  unfold Environment.fromString Environment.from_str
  by_cases h1 : s = "production"
  · simp [h1]
  · by_cases h2 : s = "development"
    · simp [h1, h2]
    · by_cases h3 : s = "test"
      · simp [h1, h2, h3]
      · simp [h1, h2, h3]

theorem buildContext_aux (l acc : List (String × String)) :
    l.foldl (fun ctx kv => ctx ++ [kv]) acc = acc ++ l := by
  induction l generalizing acc with
  | nil => simp
  | cons kv l ih => simp [List.foldl, ih]

theorem buildContext_eq (vars : List (String × String)) :
    buildContext vars = vars := by
  unfold buildContext
  rw [buildContext_aux]
  simp

/-! ### Claims about environment resolution -/

/-- C7: environment resolution is total and follows strict precedence:
an explicit command-line value wins, else the `INSPIRER_ENV` variable,
else the built-in default `development`; `from_str` succeeds on every
string (known names map to the three named variants, anything else to
`Any`), so resolution has no error path. -/
theorem claim_C7 :
    (∀ s, Environment.from_str s = .ok (Environment.fromString s)) ∧
    (∀ x ienv, cli_resolve (some x) ienv = Environment.fromString x) ∧
    (∀ y, cli_resolve none (some y) = Environment.fromString y) ∧
    cli_resolve none none = Environment.Development ∧
    Environment.fromString "production" = Environment.Production ∧
    Environment.fromString "development" = Environment.Development ∧
    Environment.fromString "test" = Environment.Test ∧
    (∀ s, s ≠ "production" → s ≠ "development" → s ≠ "test" →
      Environment.fromString s = Environment.Any s) := by
  refine ⟨from_str_total, fun x ienv => rfl, fun y => rfl, by decide,
    by decide, by decide, by decide, ?_⟩
  intro s h1 h2 h3
  unfold Environment.fromString Environment.from_str
  simp [h1, h2, h3]

/-- Witness for C7 at concrete inputs: the command-line flag beats the
process variable, the process variable beats the default, the default is
`development`, and an unrecognised name becomes `Any`. -/
theorem claim_C7_witness :
    cli_resolve (some "test") (some "production") = Environment.Test ∧
    cli_resolve none (some "production") = Environment.Production ∧
    cli_resolve none none = Environment.Development ∧
    Environment.fromString "staging" = Environment.Any "staging" := by
  obtain ⟨-, h2, h3, h4, h5, -, h7, h8⟩ := claim_C7
  refine ⟨?_, ?_, h4, ?_⟩
  · rw [h2 "test" (some "production")]; exact h7
  · rw [h3 "production"]; exact h5
  · exact h8 "staging" (by decide) (by decide) (by decide)

/-- C10: conversion of any string to an `Environment` (via `FromStr`,
used by `From<String>`) followed by `Display` yields the original string
back: the three known names render as themselves and any other string is
preserved verbatim by `Any`. -/
theorem claim_C10 (s : String) :
    Environment.from_str s = .ok (Environment.fromString s) ∧
    (Environment.fromString s).display = s := by
  refine ⟨from_str_total s, ?_⟩
  unfold Environment.fromString Environment.from_str
  by_cases h1 : s = "production"
  · simp [h1, Environment.display]
  · by_cases h2 : s = "development"
    · simp [h1, h2, Environment.display]
    · by_cases h3 : s = "test"
      · simp [h1, h2, h3, Environment.display]
      · simp [h1, h2, h3, Environment.display]

/-! ### Claims about the configuration loader -/

/-- C3: `load_folder` computes exactly two candidate paths in order —
the `<environment>.local.toml` file first, the `<environment>.toml`
file second, both nested one level under the app-name folder when a
name is set — selects the first existing candidate and uses it
exclusively: when the local file exists, the plain per-environment file
contributes nothing to the result (no merge). -/
theorem claim_C3 (name : Option String) (env : Environment) (folder : Path)
    (fs fs' : FS) (envVars : List (String × String))
    (teraOneOff : String → List (String × String) → Except String String)
    (tomlBuild : String → Except String ConfigDoc) :
    (∀ n, local_candidate (some n) env folder =
      folder ++ [n, env.display ++ ".local.toml"]) ∧
    (∀ n, base_candidate (some n) env folder =
      folder ++ [n, env.display ++ ".toml"]) ∧
    local_candidate none env folder = folder ++ [env.display ++ ".local.toml"] ∧
    base_candidate none env folder = folder ++ [env.display ++ ".toml"] ∧
    candidate_files name env folder =
      [local_candidate name env folder, base_candidate name env folder] ∧
    (fs.fexists (local_candidate name env folder) = true →
      ConfigLoader.load_folder ⟨name⟩ fs envVars teraOneOff tomlBuild env folder =
        load_config fs envVars teraOneOff tomlBuild (local_candidate name env folder)) ∧
    (fs.fexists (local_candidate name env folder) = false →
      fs.fexists (base_candidate name env folder) = true →
      ConfigLoader.load_folder ⟨name⟩ fs envVars teraOneOff tomlBuild env folder =
        load_config fs envVars teraOneOff tomlBuild (base_candidate name env folder)) ∧
    (fs.fexists (local_candidate name env folder) = true →
      fs'.fexists (local_candidate name env folder) = true →
      fs.readToString (local_candidate name env folder) =
        fs'.readToString (local_candidate name env folder) →
      ConfigLoader.load_folder ⟨name⟩ fs envVars teraOneOff tomlBuild env folder =
        ConfigLoader.load_folder ⟨name⟩ fs' envVars teraOneOff tomlBuild env folder) := by
  refine ⟨fun n => rfl, fun n => rfl, rfl, rfl, rfl, ?_, ?_, ?_⟩
  · intro h
    simp [ConfigLoader.load_folder, candidate_files, List.find?, h]
  · intro h1 h2
    simp [ConfigLoader.load_folder, candidate_files, List.find?, h1, h2]
  · intro h1 h1' hread
    simp only [ConfigLoader.load_folder, candidate_files, List.find?, h1, h1']
    simp only [load_config, hread]

/-- Witness for C3: with both `config/development.local.toml` (marker
content `A`) and `config/development.toml` (conflicting content `B`)
present, loading selects the local file exclusively and the resulting
document carries the local file's marker value. -/
theorem claim_C3_witness :
    exFS3b.fexists (local_candidate none Environment.Development ["config"]) = true ∧
    ConfigLoader.load_folder ⟨none⟩ exFS3b [] exTeraId exToml3
        Environment.Development ["config"] =
      load_config exFS3b [] exTeraId exToml3
        (local_candidate none Environment.Development ["config"]) ∧
    (match ConfigLoader.load_folder ⟨none⟩ exFS3b [] exTeraId exToml3
        Environment.Development ["config"] with
     | .ok c => c.get "marker" = .ok 1
     | .error _ => False) := by
  have h := claim_C3 none Environment.Development ["config"] exFS3b exFS3b []
    exTeraId exToml3
  refine ⟨by decide, h.2.2.2.2.2.1 (by decide), ?_⟩
  rw [h.2.2.2.2.2.1 (by decide)]
  rfl

/-- C4: when neither the `<environment>.local.toml` candidate nor the
`<environment>.toml` candidate exists, loading returns the
`ConfigNotFound` error — realised in the source as
`Error::Message("no configuration file found")` — which is a variant
distinct from the template (`Tera`), parse and deserialization
(`ConfigError`) failures. -/
theorem claim_C4 (name : Option String) (env : Environment) (folder : Path)
    (fs : FS) (envVars : List (String × String))
    (teraOneOff : String → List (String × String) → Except String String)
    (tomlBuild : String → Except String ConfigDoc)
    (h1 : fs.fexists (local_candidate name env folder) = false)
    (h2 : fs.fexists (base_candidate name env folder) = false) :
    ConfigLoader.load_folder ⟨name⟩ fs envVars teraOneOff tomlBuild env folder =
      .error (.Message "no configuration file found") ∧
    (∀ s u, Err.Message s ≠ Err.Tera u) ∧
    (∀ s u, Err.Message s ≠ Err.ConfigError u) ∧
    (∀ s u, Err.Message s ≠ Err.IOError u) := by
  refine ⟨?_, fun s u h => Err.noConfusion h, fun s u h => Err.noConfusion h,
    fun s u h => Err.noConfusion h⟩
  simp [ConfigLoader.load_folder, candidate_files, List.find?, h1, h2]

/-- Witness for C4: on an empty filesystem, loading `development` fails
with the `ConfigNotFound` message error. -/
theorem claim_C4_witness :
    ConfigLoader.load_folder ⟨none⟩ exFS4 [] exTeraId exToml3
        Environment.Development ["config"] =
      .error (.Message "no configuration file found") :=
  (claim_C4 none Environment.Development ["config"] exFS4 [] exTeraId exToml3
    rfl rfl).1

/-- C5: loading a selected file reads its raw text, builds a
substitution context containing every process environment variable,
expands placeholders against that context, and only then parses the
expanded text: the parser runs on the template engine's output;
expansion failure yields the `Tera` error and parse failure after
expansion yields the `ConfigError` error. -/
theorem claim_C5 (fs : FS) (envVars : List (String × String))
    (teraOneOff : String → List (String × String) → Except String String)
    (tomlBuild : String → Except String ConfigDoc) (p : Path) (temp : String)
    (hread : fs.readToString p = .ok temp) :
    (∀ kv, kv ∈ envVars → kv ∈ buildContext envVars) ∧
    (∀ e, teraOneOff temp (buildContext envVars) = .error e →
      load_config fs envVars teraOneOff tomlBuild p = .error (.Tera e)) ∧
    (∀ s e, teraOneOff temp (buildContext envVars) = .ok s →
      tomlBuild s = .error e →
      load_config fs envVars teraOneOff tomlBuild p = .error (.ConfigError e)) ∧
    (∀ s d, teraOneOff temp (buildContext envVars) = .ok s →
      tomlBuild s = .ok d →
      load_config fs envVars teraOneOff tomlBuild p = .ok ⟨d⟩) := by
  refine ⟨?_, ?_, ?_, ?_⟩
  · intro kv hkv
    rw [buildContext_eq]
    exact hkv
  · intro e hteras
    simp [load_config, hread, hteras]
  · intro s e hteras htoml
    simp [load_config, hread, hteras, htoml]
  · intro s d hteras htoml
    simp [load_config, hread, hteras, htoml]

/-- Witness for C5: a file containing a `SOME_VAR` placeholder, with
`SOME_VAR=42` among the process variables, loads to a document whose
`port` field equals `42`; the parser saw the expanded text `port = 42`. -/
theorem claim_C5_witness :
    exFS5.readToString exBasePath = .ok "port = \x7b\x7b SOME_VAR \x7d\x7d" ∧
    exTera5 "port = \x7b\x7b SOME_VAR \x7d\x7d"
      (buildContext [("SOME_VAR", "42")]) = .ok "port = 42" ∧
    load_config exFS5 [("SOME_VAR", "42")] exTera5 exToml5 exBasePath =
      .ok ⟨exDoc5⟩ ∧
    (Config.mk exDoc5).get "port" = .ok 42 := by
  refine ⟨rfl, rfl, ?_, rfl⟩
  exact (claim_C5 exFS5 [("SOME_VAR", "42")] exTera5 exToml5 exBasePath
    "port = \x7b\x7b SOME_VAR \x7d\x7d" rfl).2.2.2 "port = 42" exDoc5 rfl rfl

theorem runComponent_err_trace {P : Nat → ProviderDef} {fuel t : Nat}
    {r r2 : ComponentRegister} {e2 : Err} {tr2 : List Ev}
    (h : runComponent P (fuel + 1) t r = .err e2 r2 tr2)
    (h0 : mapLookup t r.created_components = none)
    (hcfg : ∃ cfgv, r.config.get (P t).config_key = .ok cfgv) :
    Ev.configRead (P t).config_key ∈ tr2 ∧ Ev.createCall t ∈ tr2 := by
  obtain ⟨cfgv, hcfg⟩ := hcfg
  have hg : ComponentRegister.get t r = .missing := get_of_lookup_none h0
  cases h3 : runProgAux (fun t2 r3 => runComponent P fuel t2 r3)
      ((P t).create cfgv) r with
  | panicked =>
    have hx : runComponent P (fuel + 1) t r = CResult.panicked := by
      simp only [runComponent, hg, hcfg, h3]
    rw [h] at hx
    exact CResult.noConfusion hx
  | timeout =>
    have hx : runComponent P (fuel + 1) t r = CResult.timeout := by
      simp only [runComponent, hg, hcfg, h3]
    rw [h] at hx
    exact CResult.noConfusion hx
  | ok v0 r0 tr0 =>
    have hx : runComponent P (fuel + 1) t r = CResult.ok v0
        { r0 with created_components :=
            mapInsert t ⟨t, v0⟩ r0.created_components }
        (Ev.configRead (P t).config_key :: Ev.createCall t :: tr0) := by
      simp only [runComponent, hg, hcfg, h3]
    rw [h] at hx
    exact CResult.noConfusion hx
  | err e0 r0 tr0 =>
    have hx : runComponent P (fuel + 1) t r = CResult.err ((P t).intoErr e0) r0
        (Ev.configRead (P t).config_key :: Ev.createCall t :: tr0) := by
      simp only [runComponent, hg, hcfg, h3]
    rw [h] at hx
    injection hx with he hr htr
    rw [htr]
    exact ⟨List.mem_cons_self _ _,
      List.mem_cons_of_mem _ (List.mem_cons_self _ _)⟩

/-! ### Claims about the component registry -/

/-- C1: after a successful `component::<T>()` call, the store holds the
returned instance boxed under `T`'s identity, and a second sequential
call returns that same stored value with an empty event trace — it
neither re-invokes `create` (of any kind) nor re-reads any config
section; when `T` was unconstructed before the first call, the first
call did read `T`'s config section and did invoke `T::create`. -/
theorem claim_C1 (P : Nat → ProviderDef) (fuel fuel2 t : Nat)
    (r r' : ComponentRegister) (v : Val) (tr : List Ev)
    (h : runComponent P fuel t r = .ok v r' tr) :
    mapLookup t r'.created_components = some ⟨t, v⟩ ∧
    runComponent P (fuel2 + 1) t r' = .ok v r' [] ∧
    (mapLookup t r.created_components = none →
      Ev.configRead (P t).config_key ∈ tr ∧ Ev.createCall t ∈ tr) := by
  have hl := runComponent_ok_lookup h
  exact ⟨hl, runComponent_found P fuel2 t r' v hl,
    fun h0 => runComponent_ok_trace h h0⟩

/-- Witness for C1: constructing kind `0` with provider `exP1` stores
`⟨0, 5⟩`; the second call returns `5` again with an empty trace. -/
theorem claim_C1_witness :
    runComponent exP1 1 0 exReg =
      .ok 5 exReg1 [.configRead "k", .createCall 0] ∧
    mapLookup 0 exReg1.created_components = some ⟨0, 5⟩ ∧
    runComponent exP1 1 0 exReg1 = .ok 5 exReg1 [] ∧
    Ev.createCall 0 ∈ [Ev.configRead "k", Ev.createCall 0] := by
  have h := claim_C1 exP1 1 0 0 exReg exReg1 5
    [.configRead "k", .createCall 0] rfl
  exact ⟨rfl, h.1, h.2.1, (h.2.2 rfl).2⟩

/-- C6 counterexample: the claim says a failed construction leaves the
instance store unchanged, but when `T`'s `create` successfully
constructs a dependency before failing (`exP6`: kind `0` requests kind
`1`, then fails with `Other 7`), the failed `component::<0>()` call
leaves the dependency's entry behind: the store is not unchanged. -/
theorem claim_C6_counterexample :
    runComponent exP6 3 0 exReg =
      .err (.Other 7) exReg6
        [.configRead "t", .createCall 0, .configRead "b", .createCall 1] ∧
    exReg6.created_components ≠ exReg.created_components :=
  ⟨rfl, by decide⟩

/-- C6 (amended): if `T::create` returns an error, `component::<T>()`
propagates that error converted through the provider's `Into`
conversion, inserts no entry for `T` (the failure is not cached;
entries inserted for successfully constructed dependencies during the
attempt remain), so a subsequent call re-attempts construction from
scratch — it re-reads the config section and re-invokes `T::create`.
The hypotheses say: the call failed after invoking `T::create`
(trace shape), `T` was unconstructed, and the failing `create` did not
reentrantly construct `T` itself. -/
theorem claim_C6 (P : Nat → ProviderDef) (fuel t : Nat)
    (r r' : ComponentRegister) (e : Err) (tr' : List Ev)
    (h : runComponent P (fuel + 1) t r =
      .err e r' (Ev.configRead (P t).config_key :: Ev.createCall t :: tr'))
    (h0 : mapLookup t r.created_components = none)
    (hnr : Ev.createCall t ∉ tr') :
    (∃ e0, e = (P t).intoErr e0) ∧
    mapLookup t r'.created_components = none ∧
    ComponentRegister.get t r' = .missing ∧
    r'.config = r.config ∧
    (∀ fuel2 v2 e2 r2 tr2,
      (runComponent P (fuel2 + 1) t r' = .ok v2 r2 tr2 →
        Ev.configRead (P t).config_key ∈ tr2 ∧ Ev.createCall t ∈ tr2) ∧
      (runComponent P (fuel2 + 1) t r' = .err e2 r2 tr2 →
        Ev.configRead (P t).config_key ∈ tr2 ∧ Ev.createCall t ∈ tr2)) := by
  obtain ⟨e0, cfgv, hmiss, hcfg, hrun, hconv⟩ := runComponent_err_shape h
  have hlk : mapLookup t r'.created_components = none := by
    have hq := runProgAux_lookup t none (fun t2 r2 => runComponent P fuel t2 r2)
      (fun t2 r2 hh => runComponent_lookup P t none fuel t2 r2 hh)
      ((P t).create cfgv) r h0
    rw [hrun] at hq
    exact hq hnr
  have hcfg' : r'.config = r.config := by
    have hq := runComponent_pres_config P r.config (fuel + 1) t r rfl
    rw [h] at hq
    exact hq
  refine ⟨⟨e0, hconv⟩, hlk, get_of_lookup_none hlk, hcfg', ?_⟩
  intro fuel2 v2 e2 r2 tr2
  constructor
  · intro h2
    exact runComponent_ok_trace h2 hlk
  · intro h2
    exact runComponent_err_trace h2 hlk ⟨cfgv, by rw [hcfg']; exact hcfg⟩

/-- Witness for C6 (amended), at a provider whose `create` fails
immediately: the error propagates, no entry is stored, and the retry
re-reads the config section and re-invokes `create`. -/
theorem claim_C6_witness :
    runComponent exP6w 1 0 exReg =
      .err (.Other 9) exReg [.configRead "k", .createCall 0] ∧
    mapLookup 0 exReg.created_components = none ∧
    Ev.createCall 0 ∈ [Ev.configRead "k", Ev.createCall 0] := by
  have h := claim_C6 exP6w 0 0 exReg exReg (.Other 9) [] rfl rfl (by decide)
  exact ⟨rfl, h.2.1,
    ((h.2.2.2.2 0 0 (.Other 9) exReg [.configRead "k", .createCall 0]).2 rfl).2⟩

/-- C8: every entry the registry operations store under a kind identity
was boxed from a value of that kind, so on every registry reachable
from `ComponentRegister::new` the store stays well-formed, the downcast
in `get` always succeeds, and the panic branches (`expect` after
`contains_key`, `unwrap` after `downcast_ref`) are unreachable — both
for direct `get` calls and inside any `component` call. -/
theorem claim_C8 (P : Nat → ProviderDef) (cfg : Config) (ops : List (Nat × Nat)) :
    (runSeq P ops (ComponentRegister.new cfg)).WF ∧
    (∀ t, ComponentRegister.get t (runSeq P ops (ComponentRegister.new cfg)) ≠
      .panicked) ∧
    (∀ fuel t, runComponent P fuel t (runSeq P ops (ComponentRegister.new cfg)) ≠
      .panicked) := by
  have hwf := runSeq_WF P ops (ComponentRegister.new cfg) (new_WF cfg)
  exact ⟨hwf, fun t => get_no_panic hwf,
    fun fuel t => (runComponent_no_panic P fuel t _ hwf).1⟩

/-- C9: the instance store grows monotonically — an entry present at the
start of any `component` call is still present, unchanged, at its end —
so once `component::<T>()` has succeeded, every later operation sequence
preserves `T`'s stored instance and `get::<T>` keeps returning it. -/
theorem claim_C9 (P : Nat → ProviderDef) (fuel t : Nat)
    (r r' : ComponentRegister) (v : Val) (tr : List Ev)
    (h : runComponent P fuel t r = .ok v r' tr) :
    mapLookup t r'.created_components = some ⟨t, v⟩ ∧
    (∀ ops, mapLookup t (runSeq P ops r').created_components = some ⟨t, v⟩ ∧
      ComponentRegister.get t (runSeq P ops r') = .found v) ∧
    (∀ (r0 : ComponentRegister) (k : Nat) (b : Boxed) (op : Nat × Nat),
      mapLookup k r0.created_components = some b →
      mapLookup k (afterOp P r0 op).created_components = some b) := by
  have hl := runComponent_ok_lookup h
  refine ⟨hl, ?_, fun r0 k b op hk => afterOp_entry P k b r0 op hk⟩
  intro ops
  have hseq := runSeq_entry P t ⟨t, v⟩ ops r' hl
  exact ⟨hseq, get_of_lookup_tyid hseq rfl⟩

/-- Witness for C9: after constructing kind `0`, running further
`component` calls (kinds `1` and `0`) leaves the entry `⟨0, 5⟩` in
place and `get` still finds it. -/
theorem claim_C9_witness :
    runComponent exP1 1 0 exReg =
      .ok 5 exReg1 [.configRead "k", .createCall 0] ∧
    mapLookup 0 (runSeq exP1 [(1, 1), (0, 1)] exReg1).created_components =
      some ⟨0, 5⟩ ∧
    ComponentRegister.get 0 (runSeq exP1 [(1, 1), (0, 1)] exReg1) = .found 5 := by
  have h := claim_C9 exP1 1 0 exReg exReg1 5
    [.configRead "k", .createCall 0] rfl
  exact ⟨rfl, (h.2.1 [(1, 1), (0, 1)]).1, (h.2.1 [(1, 1), (0, 1)]).2⟩

end Panshi
